import Mathlib

/-
Verification of the Plan 9 note (signal) shim in src/lib9/notify.c.

The shim is embedded shallowly: the kernel-visible state (the process
signal mask and the per-signal handler slots) is a `ProcState`; the
configuration entry points (`notesetenable`, `noteenable`, `notedisable`,
`notifyseton`, `notifyon`, `notifyoff`, `noteinit`, `notify`) are state
transformers translated line by line from the C source; the dispatch
trampoline (`signotify`) and the disposition primitive (`noted`) are
modelled as functions from the registered user handler's behaviour to the
observable outcome of one signal delivery, following the setjmp/longjmp
protocol of the source.

The external name tables `_p9sigstr` / `_p9strsig` are collaborators, not
part of the source here; operations that consult them take the lookup
function as an explicit parameter.
-/

namespace P9

/-- Modelled from the spec: host signal numbers come from the platform
signal header, which is external to the source under verification.  The
values below follow the BSD platform on which both optional signals
(SIGEMT and SIGINFO) are defined; the development relies only on their
being distinct and nonzero. -/
def SIGHUP : Nat := 1

def SIGINT : Nat := 2

def SIGQUIT : Nat := 3

def SIGILL : Nat := 4

def SIGTRAP : Nat := 5

def SIGEMT : Nat := 7

def SIGFPE : Nat := 8

def SIGBUS : Nat := 10

def SIGSYS : Nat := 12

def SIGPIPE : Nat := 13

def SIGALRM : Nat := 14

def SIGTERM : Nat := 15

def SIGTSTP : Nat := 18

def SIGCHLD : Nat := 20

def SIGTTIN : Nat := 21

def SIGTTOU : Nat := 22

def SIGXCPU : Nat := 24

def SIGXFSZ : Nat := 25

def SIGVTALRM : Nat := 26

def SIGWINCH : Nat := 28

def SIGINFO : Nat := 29

def SIGUSR1 : Nat := 30

def SIGUSR2 : Nat := 31

/-- One row of the note table (struct Sig in notify.c): signal number,
restart flag, default enabled (unmasked) flag, default notified flag. -/
structure Sig where
  sig : Nat
  restart : Bool
  enabled : Bool
  notified : Bool
deriving DecidableEq

/-- The static note table `sigs` of notify.c, rows in declared order,
with the commented-out SIGABRT and SIGSEGV rows absent and the
conditional SIGEMT and SIGINFO rows present (see the platform choice
above).  Field order in the C initializer is sig, restart, enabled,
notified. -/
def sigs : List Sig :=
  [⟨SIGHUP, false, true, true⟩,
   ⟨SIGINT, false, true, true⟩,
   ⟨SIGQUIT, false, true, true⟩,
   ⟨SIGILL, false, true, true⟩,
   ⟨SIGTRAP, false, true, true⟩,
   ⟨SIGEMT, false, true, true⟩,
   ⟨SIGFPE, false, true, true⟩,
   ⟨SIGBUS, false, true, true⟩,
   ⟨SIGCHLD, true, false, true⟩,
   ⟨SIGSYS, false, true, true⟩,
   ⟨SIGPIPE, false, false, true⟩,
   ⟨SIGALRM, false, true, true⟩,
   ⟨SIGTERM, false, true, true⟩,
   ⟨SIGTSTP, true, false, true⟩,
   ⟨SIGTTIN, true, false, true⟩,
   ⟨SIGTTOU, true, false, true⟩,
   ⟨SIGXCPU, false, true, true⟩,
   ⟨SIGXFSZ, false, true, true⟩,
   ⟨SIGVTALRM, false, true, true⟩,
   ⟨SIGUSR1, false, true, true⟩,
   ⟨SIGUSR2, false, true, true⟩,
   ⟨SIGWINCH, true, false, true⟩,
   ⟨SIGINFO, true, true, true⟩]

/-- Linear search of a note table for a signal number, first match wins
(`findsig` in the source, generalized over the table searched). -/
def findsigIn (tab : List Sig) (s : Nat) : Option Sig :=
  tab.find? (fun r => r.sig == s)

/-- The source's `findsig`, over the static table. -/
def findsig (s : Nat) : Option Sig :=
  findsigIn sigs s

/-- Contents of one host handler slot: platform default (SIG_DFL), the
dispatch trampoline (`signotify`), the silent trampoline
(`signonotify`), or some foreign handler installed by another
component. -/
inductive Slot where
  | dfl
  | dispatch (restart : Bool)
  | silent (restart : Bool)
  | other (id : Nat)
deriving DecidableEq

/-- Kernel-visible process state: which signals are blocked in the
process mask, and what each handler slot holds. -/
structure ProcState where
  blocked : Nat → Bool
  slot : Nat → Slot

/-- The `handler` helper of notify.c: read the current handler slot of a
signal (via sigaction with a nil act). -/
def handler (st : ProcState) (s : Nat) : Slot :=
  st.slot s

/-- The `notesetenable` helper: a no-op on signal 0, otherwise unblock
(`enabled = true`, SIG_UNBLOCK) or block (SIG_BLOCK) exactly that signal
in the process mask.  The handler slots are untouched. -/
def notesetenable (sig : Nat) (enabled : Bool) (st : ProcState) : ProcState :=
  if sig = 0 then st
  else { st with blocked := fun t => if t = sig then !enabled else st.blocked t }

/-- The `noteenable` entry point: translate the note name and unblock. -/
def noteenable (strsig : String → Nat) (msg : String) (st : ProcState) : ProcState :=
  notesetenable (strsig msg) true st

/-- The `notedisable` entry point: translate the note name and block. -/
def notedisable (strsig : String → Nat) (msg : String) (st : ProcState) : ProcState :=
  notesetenable (strsig msg) false st

/-- The `notifyseton` helper, generalized over the table consulted:
look the signal up; if absent do nothing; otherwise, when switching on,
first unblock the signal, then install the dispatch trampoline (on) or
the silent trampoline (off) with the row's restart flag. -/
def notifysetonIn (tab : List Sig) (s : Nat) (isOn : Bool) (st : ProcState) : ProcState :=
  match findsigIn tab s with
  | none => st
  | some sig =>
      let st1 := if isOn then notesetenable s true st else st
      { st1 with
        slot := fun t =>
          if t = sig.sig then
            (if isOn then Slot.dispatch sig.restart else Slot.silent sig.restart)
          else st1.slot t }

/-- The source's `notifyseton`, over the static table. -/
def notifyseton (s : Nat) (isOn : Bool) (st : ProcState) : ProcState :=
  notifysetonIn sigs s isOn st

/-- The `notifyon` entry point. -/
def notifyon (strsig : String → Nat) (msg : String) (st : ProcState) : ProcState :=
  notifyseton (strsig msg) true st

/-- The `notifyoff` entry point. -/
def notifyoff (strsig : String → Nat) (msg : String) (st : ProcState) : ProcState :=
  notifyseton (strsig msg) false st

/-- One iteration of the `noteinit` loop: skip the row if its handler
slot is no longer at the platform default, otherwise apply the row's
default enabled state and install the trampoline per its notified
state. -/
def noteinitStep (tab : List Sig) (st : ProcState) (x : Sig) : ProcState :=
  if handler st x.sig ≠ Slot.dfl then st
  else notifysetonIn tab x.sig x.notified (notesetenable x.sig x.enabled st)

/-- The `noteinit` loop over an arbitrary table (the table is both the
row sequence iterated and the table `notifyseton` consults). -/
def noteinitOn (tab : List Sig) (st : ProcState) : ProcState :=
  List.foldl (noteinitStep tab) st tab

/-- The source's `noteinit`, over the static table. -/
def noteinit (st : ProcState) : ProcState :=
  noteinitOn sigs st

/-- Modelled from the spec: the disposition constant CONTINUE of the
Plan 9 libc header (NCONT), whose definition is not among the sources
here; its value is 0. -/
def NCONT : Int := 0

/-- Modelled from the spec: the disposition constant DEFAULT of the
Plan 9 libc header (NDFLT); its value is 1. -/
def NDFLT : Int := 1

/-- Value `noted` passes to p9longjmp: 2 for NCONT, 1 for anything
else (the conditional `v==NCONT ? 2 : 1` in the source). -/
def notedJump (v : Int) : Nat :=
  if v = NCONT then 2 else 1

/-- Observable result of a call to `noted`: either a non-local jump
into the trampoline's setjmp with the given value, or a process abort.
The abort alternative exists so that the question "does noted ever
abort?" is expressible; `p9longjmp` does not return, so the `abort()`
that follows it in the source is unreachable. -/
inductive NotedResult where
  | jumped (jv : Nat)
  | aborted
deriving DecidableEq

/-- The `noted` entry point: perform the non-local jump carrying
`notedJump v`.  Control never reaches the subsequent abort. -/
def noted (v : Int) : NotedResult :=
  NotedResult.jumped (notedJump v)

/-- Observable outcome of one delivery handled by the dispatch
trampoline: either the process terminates (the trampoline reinstalled
the platform default into the slot of `reinstalled`, re-raised
`raised`, and called _exit with `status`), or the trampoline returns
and the interrupted frame resumes. -/
inductive Outcome where
  | terminated (reinstalled : Nat) (raised : Nat) (status : Nat)
  | resumed
deriving DecidableEq

/-- The switch of `signotify` on a non-initial setjmp value: case 2
(noted NCONT) returns, resuming the frame; case 1 (noted NDFLT, or a
fall-through from the initial entry) reinstalls SIG_DFL, re-raises the
signal and exits with status 1. -/
def signotifySwitch (sig : Nat) (jv : Nat) : Outcome :=
  if jv = 2 then Outcome.resumed
  else Outcome.terminated sig sig 1

/-- Behaviour of one invocation of the registered user handler: it
either returns normally or calls `noted` with some disposition (after
which control leaves the handler through the non-local jump). -/
inductive HandlerBehavior where
  | ret
  | resumeWith (v : Int)
deriving DecidableEq

/-- Everything a single trampoline run makes observable: the note name
passed to the user handler (none when the handler was not invoked) and
the final outcome. -/
structure DispatchResult where
  handlerArg : Option String
  outcome : Outcome
deriving DecidableEq

/-- The dispatch trampoline `signotify`: snapshot the frame (setjmp
returns 0 on the initial entry); when a user handler is registered,
invoke it with the textual signal name; a normal return falls through
to case 1, and a `noted` call re-enters the switch with the jump
value.  With no handler registered the initial entry falls directly
through to case 1. -/
def signotify (sigstr : Nat → String) (notifyf : Option HandlerBehavior) (sig : Nat) :
    DispatchResult :=
  match notifyf with
  | none => ⟨none, signotifySwitch sig 1⟩
  | some HandlerBehavior.ret => ⟨some (sigstr sig), signotifySwitch sig 1⟩
  | some (HandlerBehavior.resumeWith v) =>
      ⟨some (sigstr sig), signotifySwitch sig (notedJump v)⟩

/-- Whole-shim state for the `notify` entry point: the kernel-visible
process state, the process-wide user-handler pointer `notifyf`, and the
one-shot `init` latch (the static int inside `notify`). -/
structure ShimState where
  proc : ProcState
  notifyf : Option HandlerBehavior
  init : Bool

/-- The `notify` entry point: store the handler pointer, run the
one-shot note-table initialization on the first call only, and return
0.  Generalized over the table so that initialization order is also
checkable on hypothetical tables. -/
def notify (tab : List Sig) (f : Option HandlerBehavior) (st : ShimState) :
    Nat × ShimState :=
  if st.init then (0, { st with notifyf := f })
  else (0, { st with notifyf := f, init := true, proc := noteinitOn tab st.proc })

/-- All-default process state used as a concrete evaluation point:
nothing blocked, every slot at the platform default. -/
def st0 : ProcState :=
  ⟨fun _ => false, fun _ => Slot.dfl⟩

/-- Process state with a foreign handler pre-installed on the SIGCHLD
slot, used as a concrete evaluation point. -/
def stOcc : ProcState :=
  ⟨fun _ => false, fun t => if t = SIGCHLD then Slot.other 7 else Slot.dfl⟩

/-- Shim state before any `notify` call. -/
def shim0 : ShimState :=
  ⟨st0, none, false⟩

/-- Name-table stub resolving every name to SIGALRM, for witnesses. -/
def strsigAlarm : String → Nat := fun _ => SIGALRM

/-- Name-table stub resolving every name to 0 (unknown), for
witnesses. -/
def strsigZero : String → Nat := fun _ => 0

/-- Name-table stub resolving every name to signal 99, a nonzero number
with no row in the note table, for witnesses. -/
def strsigNoRow : String → Nat := fun _ => 99

/-- Signal-name stub for witnesses. -/
def sigstrW : Nat → String := fun _ => "note"

/-- Two-row table carrying a duplicate signal number 5, used to test
the initialization order claim on duplicates. -/
def dupTable : List Sig :=
  [⟨5, false, false, false⟩, ⟨5, false, true, true⟩]

theorem findsigIn_sig {tab : List Sig} {s : Nat} {r : Sig}
    (h : findsigIn tab s = some r) : r.sig = s := by
  have h2 := List.find?_some h
  exact beq_iff_eq.mp h2

theorem findsigIn_mem {tab : List Sig} {s : Nat} {r : Sig}
    (h : findsigIn tab s = some r) : r ∈ tab :=
  List.mem_of_find?_eq_some h

theorem findsig_ne_zero {s : Nat} {r : Sig} (h : findsig s = some r) : s ≠ 0 := by
  have hs : r.sig = s := findsigIn_sig h
  have hm : r ∈ sigs := findsigIn_mem h
  have hz : ∀ x ∈ sigs, x.sig ≠ 0 := by decide
  exact hs ▸ hz r hm

theorem notesetenable_slot (sig : Nat) (e : Bool) (st : ProcState) :
    (notesetenable sig e st).slot = st.slot := by
  unfold notesetenable
  split <;> rfl

theorem notesetenable_blocked_ne (sig : Nat) (e : Bool) (st : ProcState) (t : Nat)
    (h : t ≠ sig) : (notesetenable sig e st).blocked t = st.blocked t := by
  unfold notesetenable
  split
  · rfl
  · simp [h]

theorem notesetenable_blocked_self (sig : Nat) (e : Bool) (st : ProcState)
    (hz : sig ≠ 0) : (notesetenable sig e st).blocked sig = !e := by
  simp [notesetenable, hz]

theorem notifysetonIn_slot_ne (tab : List Sig) (s : Nat) (isOn : Bool)
    (st : ProcState) (t : Nat) (h : t ≠ s) :
    (notifysetonIn tab s isOn st).slot t = st.slot t := by
  unfold notifysetonIn
  cases hf : findsigIn tab s with
  | none => rfl
  | some r =>
      have hr : r.sig = s := findsigIn_sig hf
      cases isOn <;> simp [hr, h, notesetenable_slot]

theorem notifysetonIn_blocked_ne (tab : List Sig) (s : Nat) (isOn : Bool)
    (st : ProcState) (t : Nat) (h : t ≠ s) :
    (notifysetonIn tab s isOn st).blocked t = st.blocked t := by
  unfold notifysetonIn
  cases hf : findsigIn tab s with
  | none => rfl
  | some r => cases isOn <;> simp [notesetenable_blocked_ne _ _ _ _ h]

theorem notifysetonIn_slot_self (tab : List Sig) (s : Nat) (isOn : Bool)
    (st : ProcState) (r : Sig) (hf : findsigIn tab s = some r) :
    (notifysetonIn tab s isOn st).slot s =
      (if isOn then Slot.dispatch r.restart else Slot.silent r.restart) := by
  unfold notifysetonIn
  rw [hf]
  have hr : r.sig = s := findsigIn_sig hf
  simp [hr]

theorem notifysetonIn_blocked_self (tab : List Sig) (s : Nat) (isOn : Bool)
    (st : ProcState) (r : Sig) (hf : findsigIn tab s = some r) (hz : s ≠ 0) :
    (notifysetonIn tab s isOn st).blocked s =
      (if isOn then false else st.blocked s) := by
  unfold notifysetonIn
  rw [hf]
  cases isOn <;> simp [notesetenable_blocked_self _ _ _ hz]

theorem notifysetonIn_off_blocked (tab : List Sig) (s : Nat) (st : ProcState) :
    (notifysetonIn tab s false st).blocked = st.blocked := by
  unfold notifysetonIn
  cases findsigIn tab s <;> rfl

theorem noteinitStep_skip (tab : List Sig) (st : ProcState) (x : Sig)
    (h : st.slot x.sig ≠ Slot.dfl) : noteinitStep tab st x = st := by
  simp [noteinitStep, handler, h]

theorem noteinitStep_slot_ne (tab : List Sig) (st : ProcState) (x : Sig) (t : Nat)
    (h : t ≠ x.sig) : (noteinitStep tab st x).slot t = st.slot t := by
  unfold noteinitStep
  split
  · rfl
  · rw [notifysetonIn_slot_ne _ _ _ _ _ h, notesetenable_slot]

theorem noteinitStep_blocked_ne (tab : List Sig) (st : ProcState) (x : Sig) (t : Nat)
    (h : t ≠ x.sig) : (noteinitStep tab st x).blocked t = st.blocked t := by
  unfold noteinitStep
  split
  · rfl
  · rw [notifysetonIn_blocked_ne _ _ _ _ _ h, notesetenable_blocked_ne _ _ _ _ h]

theorem noteinitStep_slot_self (tab : List Sig) (st : ProcState) (x : Sig) (r : Sig)
    (hd : st.slot x.sig = Slot.dfl) (hf : findsigIn tab x.sig = some r) :
    (noteinitStep tab st x).slot x.sig =
      (if x.notified then Slot.dispatch r.restart else Slot.silent r.restart) := by
  unfold noteinitStep
  rw [if_neg (by simp [handler, hd])]
  exact notifysetonIn_slot_self _ _ _ _ _ hf

theorem noteinitStep_blocked_self (tab : List Sig) (st : ProcState) (x : Sig) (r : Sig)
    (hd : st.slot x.sig = Slot.dfl) (hf : findsigIn tab x.sig = some r)
    (hz : x.sig ≠ 0) :
    (noteinitStep tab st x).blocked x.sig =
      (if x.notified then false else !x.enabled) := by
  unfold noteinitStep
  rw [if_neg (by simp [handler, hd])]
  rw [notifysetonIn_blocked_self _ _ _ _ _ hf hz]
  cases hn : x.notified
  · simp [notesetenable_blocked_self _ _ _ hz]
  · simp

theorem noteinitStep_tab_congr (t1 t2 : List Sig) (st : ProcState) (x : Sig)
    (h : findsigIn t1 x.sig = findsigIn t2 x.sig) :
    noteinitStep t1 st x = noteinitStep t2 st x := by
  unfold noteinitStep notifysetonIn
  rw [h]

theorem foldl_steps_occupied (tab rows : List Sig) (st : ProcState) (s : Nat)
    (h : st.slot s ≠ Slot.dfl) :
    (List.foldl (noteinitStep tab) st rows).slot s = st.slot s ∧
    (List.foldl (noteinitStep tab) st rows).blocked s = st.blocked s := by
  induction rows generalizing st with
  | nil => exact ⟨rfl, rfl⟩
  | cons x rest ih =>
      simp only [List.foldl]
      by_cases hx : x.sig = s
      · have hskip : noteinitStep tab st x = st :=
          noteinitStep_skip tab st x (by rw [hx]; exact h)
        rw [hskip]
        exact ih st h
      · have hs : s ≠ x.sig := fun he => hx he.symm
        have h1 := noteinitStep_slot_ne tab st x s hs
        have h2 := noteinitStep_blocked_ne tab st x s hs
        have h3 := ih (noteinitStep tab st x) (by rw [h1]; exact h)
        exact ⟨h3.1.trans h1, h3.2.trans h2⟩

theorem foldl_steps_untouched (tab rows : List Sig) (st : ProcState) (s : Nat)
    (h : ∀ x ∈ rows, x.sig ≠ s) :
    (List.foldl (noteinitStep tab) st rows).slot s = st.slot s ∧
    (List.foldl (noteinitStep tab) st rows).blocked s = st.blocked s := by
  induction rows generalizing st with
  | nil => exact ⟨rfl, rfl⟩
  | cons x rest ih =>
      simp only [List.foldl]
      have hx : s ≠ x.sig := fun he => h x (List.mem_cons_self x rest) he.symm
      have h1 := noteinitStep_slot_ne tab st x s hx
      have h2 := noteinitStep_blocked_ne tab st x s hx
      have h3 := ih (noteinitStep tab st x) (fun y hy => h y (List.mem_cons_of_mem _ hy))
      exact ⟨h3.1.trans h1, h3.2.trans h2⟩

theorem noteinit_fold_dfl_row (tab rows : List Sig) (st : ProcState) (r r' : Sig)
    (hmem : r ∈ rows) (hnd : (rows.map Sig.sig).Nodup)
    (hf : findsigIn tab r.sig = some r') (hz : r.sig ≠ 0)
    (hd : st.slot r.sig = Slot.dfl) :
    (List.foldl (noteinitStep tab) st rows).slot r.sig =
      (if r.notified then Slot.dispatch r'.restart else Slot.silent r'.restart) ∧
    (List.foldl (noteinitStep tab) st rows).blocked r.sig =
      (if r.notified then false else !r.enabled) := by
  induction rows generalizing st with
  | nil => cases hmem
  | cons x rest ih =>
      simp only [List.foldl]
      rcases List.mem_cons.mp hmem with rfl | hmem'
      · have h1 := noteinitStep_slot_self tab st r r' hd hf
        have h2 := noteinitStep_blocked_self tab st r r' hd hf hz
        have hocc : (noteinitStep tab st r).slot r.sig ≠ Slot.dfl := by
          rw [h1]; cases r.notified <;> simp
        have h3 := foldl_steps_occupied tab rest (noteinitStep tab st r) r.sig hocc
        exact ⟨h3.1.trans h1, h3.2.trans h2⟩
      · have hxsig : x.sig ≠ r.sig := by
          intro he
          have hmap : r.sig ∈ rest.map Sig.sig := List.mem_map_of_mem _ hmem'
          exact (List.nodup_cons.mp hnd).1 (he ▸ hmap)
        have hrs : r.sig ≠ x.sig := fun he => hxsig he.symm
        have h1 := noteinitStep_slot_ne tab st x r.sig hrs
        exact ih (noteinitStep tab st x) hmem' (List.nodup_cons.mp hnd).2
          (by rw [h1]; exact hd)

/-- C1: with a user handler registered, the dispatch trampoline invokes
it with the textual name of the triggering signal on the initial entry;
a normal return or resume(DEFAULT) reinstalls the platform-default
handler, re-raises the signal and exits with nonzero status 1, while
resume(CONTINUE) makes the trampoline return, resuming the interrupted
frame. -/
theorem C1_dispatch_disposition (sigstr : Nat → String) (sig : Nat) :
    signotify sigstr (some HandlerBehavior.ret) sig =
      ⟨some (sigstr sig), Outcome.terminated sig sig 1⟩ ∧
    signotify sigstr (some (HandlerBehavior.resumeWith NDFLT)) sig =
      ⟨some (sigstr sig), Outcome.terminated sig sig 1⟩ ∧
    signotify sigstr (some (HandlerBehavior.resumeWith NCONT)) sig =
      ⟨some (sigstr sig), Outcome.resumed⟩ := by
  refine ⟨?_, ?_, ?_⟩ <;>
    simp [signotify, signotifySwitch, notedJump, NCONT, NDFLT]

/-- C2 (counterexample): `noted 5`, a disposition outside
{NCONT, NDFLT}, does not abort; it performs exactly the same non-local
jump as `noted NDFLT`. -/
theorem C2_counterexample :
    noted 5 ≠ NotedResult.aborted ∧ noted 5 = noted NDFLT ∧
    (5 : Int) ≠ NCONT ∧ (5 : Int) ≠ NDFLT := by decide

/-- C2 (amended): `noted` never aborts; every disposition other than
CONTINUE — the DEFAULT value and every unsupported value alike — is
carried back as jump value 1, i.e. is treated exactly as DEFAULT. -/
theorem C2_amended_treated_as_default (v : Int) :
    noted v ≠ NotedResult.aborted ∧
    (v ≠ NCONT → noted v = noted NDFLT) := by
  constructor
  · simp [noted]
  · intro h
    have h' : v ≠ 0 := by simpa [NCONT] using h
    simp [noted, notedJump, h', NCONT, NDFLT]

/-- C2 (witness): the amended theorem applied at the unsupported
disposition 5. -/
theorem C2_witness : (5 : Int) ≠ NCONT ∧ noted 5 = noted NDFLT :=
  ⟨by decide, (C2_amended_treated_as_default 5).2 (by decide)⟩

/-- C3 (counterexample): the SIGINFO row of the static note table has
enabled = true, not the enabled = false the claim ascribes to every
job-control-like row. -/
theorem C3_counterexample :
    (findsig SIGINFO).map Sig.enabled = some true ∧
    (findsig SIGINFO).map Sig.enabled ≠ some false := by decide

/-- C3 (amended): the child-status, stop-request and window-size rows
(SIGCHLD, SIGTSTP, SIGTTIN, SIGTTOU, SIGWINCH) default to
enabled = false, notified = true, restart = true; the SIGINFO row
defaults to enabled = true, notified = true, restart = true; the
SIGPIPE row defaults to masked and non-restarting; every other row
defaults to enabled, non-restarting and delivered. -/
theorem C3_amended_table_defaults :
    (sigs.all fun r =>
      if r.sig == SIGCHLD || r.sig == SIGTSTP || r.sig == SIGTTIN ||
         r.sig == SIGTTOU || r.sig == SIGWINCH then
        r.restart && !r.enabled && r.notified
      else if r.sig == SIGINFO then
        r.restart && r.enabled && r.notified
      else if r.sig == SIGPIPE then
        !r.restart && !r.enabled && r.notified
      else
        !r.restart && r.enabled && r.notified) = true := by decide

/-- C4 (counterexample): on a table whose two rows share signal 5 (the
earlier row silent and masked, the later row notified and enabled),
initialization from an all-default state leaves the earlier row's
settings in force — the silent trampoline and a blocked mask bit — and
not the later row's dispatch trampoline and unblocked bit. -/
theorem C4_counterexample :
    dupTable.map Sig.sig = [5, 5] ∧
    (noteinitOn dupTable st0).slot 5 = Slot.silent false ∧
    (noteinitOn dupTable st0).slot 5 ≠ Slot.dispatch false ∧
    (noteinitOn dupTable st0).blocked 5 = true := by decide

/-- C4 (amended): initialization processes rows in declared order, but
a later row carrying a duplicate signal number is skipped rather than
overriding: the earlier row's processing leaves a non-default handler
in the slot, so the duplicate table behaves exactly as if the later
row were absent. -/
theorem C4_amended_first_row_wins (r1 r2 : Sig) (st : ProcState)
    (h : r2.sig = r1.sig) :
    noteinitOn [r1, r2] st = noteinitOn [r1] st := by
  have hf1 : findsigIn [r1] r1.sig = some r1 := by
    simp [findsigIn, List.find?]
  have hf2 : findsigIn [r1, r2] r1.sig = some r1 := by
    simp [findsigIn, List.find?]
  have hstep1 : noteinitStep [r1, r2] st r1 = noteinitStep [r1] st r1 :=
    noteinitStep_tab_congr _ _ st r1 (hf2.trans hf1.symm)
  have hocc : (noteinitStep [r1] st r1).slot r2.sig ≠ Slot.dfl := by
    rw [h]
    by_cases hd : st.slot r1.sig = Slot.dfl
    · rw [noteinitStep_slot_self [r1] st r1 r1 hd hf1]
      cases r1.notified <;> simp
    · rw [noteinitStep_skip [r1] st r1 hd]
      exact hd
  show noteinitStep [r1, r2] (noteinitStep [r1, r2] st r1) r2 =
    noteinitStep [r1] st r1
  rw [hstep1, noteinitStep_skip _ _ _ hocc]

/-- C4 (witness): the amended theorem applied to the concrete duplicate
table. -/
theorem C4_witness :
    (⟨5, false, true, true⟩ : Sig).sig = (⟨5, false, false, false⟩ : Sig).sig ∧
    noteinitOn dupTable st0 = noteinitOn [⟨5, false, false, false⟩] st0 :=
  ⟨rfl, C4_amended_first_row_wins ⟨5, false, false, false⟩ ⟨5, false, true, true⟩ st0 rfl⟩

/-- C5: for a note name that resolves to a signal with a row in the
note table, enable unblocks and disable blocks that signal without
touching any handler slot; attach unblocks it and installs the dispatch
trampoline; detach leaves the mask unchanged and installs the silent
trampoline; no other signal's mask bit or slot is touched. -/
theorem C5_config_operations (strsig : String → Nat) (msg : String) (s : Nat)
    (r : Sig) (st : ProcState) (hm : strsig msg = s) (hr : findsig s = some r) :
    ((noteenable strsig msg st).blocked s = false ∧
     (∀ t, t ≠ s → (noteenable strsig msg st).blocked t = st.blocked t) ∧
     (noteenable strsig msg st).slot = st.slot) ∧
    ((notedisable strsig msg st).blocked s = true ∧
     (∀ t, t ≠ s → (notedisable strsig msg st).blocked t = st.blocked t) ∧
     (notedisable strsig msg st).slot = st.slot) ∧
    ((notifyon strsig msg st).blocked s = false ∧
     (notifyon strsig msg st).slot s = Slot.dispatch r.restart ∧
     (∀ t, t ≠ s → (notifyon strsig msg st).slot t = st.slot t)) ∧
    ((notifyoff strsig msg st).blocked = st.blocked ∧
     (notifyoff strsig msg st).slot s = Slot.silent r.restart ∧
     (∀ t, t ≠ s → (notifyoff strsig msg st).slot t = st.slot t)) := by
  have hz : s ≠ 0 := findsig_ne_zero hr
  have hr' : findsigIn sigs s = some r := hr
  refine ⟨⟨?_, ?_, ?_⟩, ⟨?_, ?_, ?_⟩, ⟨?_, ?_, ?_⟩, ⟨?_, ?_, ?_⟩⟩
  · simp only [noteenable, hm]
    rw [notesetenable_blocked_self _ _ _ hz]
    rfl
  · intro t ht
    simp only [noteenable, hm]
    exact notesetenable_blocked_ne _ _ _ _ ht
  · simp only [noteenable, hm, notesetenable_slot]
  · simp only [notedisable, hm]
    rw [notesetenable_blocked_self _ _ _ hz]
    rfl
  · intro t ht
    simp only [notedisable, hm]
    exact notesetenable_blocked_ne _ _ _ _ ht
  · simp only [notedisable, hm, notesetenable_slot]
  · simp only [notifyon, notifyseton, hm]
    rw [notifysetonIn_blocked_self _ _ _ _ _ hr' hz]
    rfl
  · simp only [notifyon, notifyseton, hm]
    rw [notifysetonIn_slot_self _ _ _ _ _ hr']
    rfl
  · intro t ht
    simp only [notifyon, notifyseton, hm]
    exact notifysetonIn_slot_ne _ _ _ _ _ ht
  · simp only [notifyoff, notifyseton, hm, notifysetonIn_off_blocked]
  · simp only [notifyoff, notifyseton, hm]
    rw [notifysetonIn_slot_self _ _ _ _ _ hr']
    rfl
  · intro t ht
    simp only [notifyoff, notifyseton, hm]
    exact notifysetonIn_slot_ne _ _ _ _ _ ht

/-- C5 (witness): the configuration effects evaluated on the SIGALRM
row from the all-default state. -/
theorem C5_witness :
    strsigAlarm "alarm" = SIGALRM ∧
    findsig SIGALRM = some ⟨SIGALRM, false, true, true⟩ ∧
    (noteenable strsigAlarm "alarm" st0).blocked SIGALRM = false ∧
    (notedisable strsigAlarm "alarm" st0).blocked SIGALRM = true ∧
    (notifyon strsigAlarm "alarm" st0).slot SIGALRM = Slot.dispatch false ∧
    (notifyoff strsigAlarm "alarm" st0).slot SIGALRM = Slot.silent false := by
  have h := C5_config_operations strsigAlarm "alarm" SIGALRM
    ⟨SIGALRM, false, true, true⟩ st0 rfl (by decide)
  exact ⟨rfl, by decide, h.1.1, h.2.1.1, h.2.2.1.2.1, h.2.2.2.2.1⟩

/-- C6 (counterexample): in the all-default state SIGCHLD's slot is at
the platform default and its row has defaultEnabled = false, yet after
initialization the mask leaves SIGCHLD unblocked: installing the
dispatch trampoline re-unblocked it, so the row's defaultEnabled is not
what ends up applied to the mask. -/
theorem C6_counterexample :
    st0.slot SIGCHLD = Slot.dfl ∧
    (findsig SIGCHLD).map Sig.enabled = some false ∧
    (noteinit st0).blocked SIGCHLD = false := by decide

/-- C6 (amended): initialization skips entirely every row whose handler
slot is not at the platform default, leaving that signal's slot and
mask bit unchanged; a row still at the platform default has its
defaultEnabled applied and then the trampoline installed per
defaultNotified, and because installing the dispatch trampoline also
unblocks the signal, its final mask bit is unblocked whenever
defaultNotified is true and equals defaultEnabled otherwise. -/
theorem C6_amended_init_effects :
    (∀ st s, st.slot s ≠ Slot.dfl →
      (noteinit st).slot s = st.slot s ∧
      (noteinit st).blocked s = st.blocked s) ∧
    (∀ st r, r ∈ sigs → st.slot r.sig = Slot.dfl →
      (noteinit st).slot r.sig =
        (if r.notified then Slot.dispatch r.restart else Slot.silent r.restart) ∧
      (noteinit st).blocked r.sig = (if r.notified then false else !r.enabled)) := by
  constructor
  · intro st s h
    exact foldl_steps_occupied sigs sigs st s h
  · intro st r hmem hd
    have hf : findsigIn sigs r.sig = some r :=
      (by decide : ∀ x ∈ sigs, findsigIn sigs x.sig = some x) r hmem
    have hz : r.sig ≠ 0 := (by decide : ∀ x ∈ sigs, x.sig ≠ 0) r hmem
    exact noteinit_fold_dfl_row sigs sigs st r r hmem (by decide) hf hz hd

/-- C6 (witness): the amended theorem applied to a foreign handler on
the SIGCHLD slot (left untouched) and to the all-default state (SIGCHLD
gets the restarting dispatch trampoline). -/
theorem C6_witness :
    stOcc.slot SIGCHLD = Slot.other 7 ∧
    (noteinit stOcc).slot SIGCHLD = Slot.other 7 ∧
    st0.slot SIGCHLD = Slot.dfl ∧
    (noteinit st0).slot SIGCHLD = Slot.dispatch true := by
  have ha := (C6_amended_init_effects).1 stOcc SIGCHLD (by decide)
  have hb := (C6_amended_init_effects).2 st0 ⟨SIGCHLD, true, false, true⟩
    (by decide) rfl
  exact ⟨rfl, ha.1.trans (by decide), rfl, hb.1.trans (by simp)⟩

/-- C7: a note name unknown to the name table resolves to signal 0 and
makes enable, disable, attach and detach silent no-ops on the whole
process state; attach and detach are likewise no-ops for any signal
without a row in the note table. -/
theorem C7_unknown_note_noop (strsig : String → Nat) (msg : String) (s : Nat)
    (st : ProcState) (h0 : strsig msg = 0) (hs : findsig s = none) :
    noteenable strsig msg st = st ∧
    notedisable strsig msg st = st ∧
    notifyon strsig msg st = st ∧
    notifyoff strsig msg st = st ∧
    notifyseton s true st = st ∧
    notifyseton s false st = st := by
  have hz : findsigIn sigs 0 = none := by decide
  have hs' : findsigIn sigs s = none := hs
  refine ⟨?_, ?_, ?_, ?_, ?_, ?_⟩
  · simp [noteenable, h0, notesetenable]
  · simp [notedisable, h0, notesetenable]
  · simp [notifyon, notifyseton, h0, notifysetonIn, hz]
  · simp [notifyoff, notifyseton, h0, notifysetonIn, hz]
  · simp [notifyseton, notifysetonIn, hs']
  · simp [notifyseton, notifysetonIn, hs']

/-- C7 (witness): the no-op theorem applied to an unknown name and to
signal 19, which has no row in the table. -/
theorem C7_witness :
    strsigZero "bogus" = 0 ∧ findsig 19 = none ∧
    noteenable strsigZero "bogus" st0 = st0 ∧
    notifyseton 19 true st0 = st0 := by
  have h := C7_unknown_note_noop strsigZero "bogus" 19 st0 rfl (by decide)
  exact ⟨rfl, by decide, h.1, h.2.2.2.2.1⟩

/-- C8: with no user handler registered, the dispatch trampoline takes
the default path directly — it invokes no handler, reinstalls the
platform default, re-raises the signal and exits with nonzero
status 1. -/
theorem C8_no_handler_default_path (sigstr : Nat → String) (sig : Nat) :
    signotify sigstr none sig = ⟨none, Outcome.terminated sig sig 1⟩ := by
  simp [signotify, signotifySwitch]

/-- C9: `noteenable` and `notedisable` never consult the note table:
for any nonzero signal number produced by the name lookup — rows or no
rows — enable unblocks it and disable blocks it, with every handler
slot left unchanged. -/
theorem C9_mask_ops_ignore_table (strsig : String → Nat) (msg : String) (s : Nat)
    (st : ProcState) (hm : strsig msg = s) (hz : s ≠ 0) :
    (noteenable strsig msg st).blocked s = false ∧
    (noteenable strsig msg st).slot = st.slot ∧
    (notedisable strsig msg st).blocked s = true ∧
    (notedisable strsig msg st).slot = st.slot := by
  refine ⟨?_, ?_, ?_, ?_⟩
  · simp only [noteenable, hm]
    rw [notesetenable_blocked_self _ _ _ hz]
    rfl
  · simp only [noteenable, hm, notesetenable_slot]
  · simp only [notedisable, hm]
    rw [notesetenable_blocked_self _ _ _ hz]
    rfl
  · simp only [notedisable, hm, notesetenable_slot]

/-- C9 (witness): the mask operations applied to signal 99, which has
no row in the note table. -/
theorem C9_witness :
    strsigNoRow "hup" = 99 ∧ (99 : Nat) ≠ 0 ∧ findsig 99 = none ∧
    (noteenable strsigNoRow "hup" st0).blocked 99 = false ∧
    (notedisable strsigNoRow "hup" st0).blocked 99 = true := by
  have h := C9_mask_ops_ignore_table strsigNoRow "hup" 99 st0 rfl (by decide)
  exact ⟨rfl, by decide, by decide, h.1, h.2.2.1⟩

/-- C10: every `notify` call stores its argument as the process-wide
user-handler pointer (nil clears it, after which deliveries take the
default path) and returns 0; the note-table initialization runs only on
the first call — a call with the latch already set changes nothing but
the handler pointer, and a second call never reruns it. -/
theorem C10_register_semantics (tab : List Sig) (f : Option HandlerBehavior)
    (st : ShimState) (sigstr : Nat → String) (sig : Nat) :
    (notify tab f st).1 = 0 ∧
    (notify tab f st).2.notifyf = f ∧
    (notify tab f st).2.init = true ∧
    (st.init = false → (notify tab f st).2.proc = noteinitOn tab st.proc) ∧
    (st.init = true → (notify tab f st).2 = { st with notifyf := f }) ∧
    (∀ f2, (notify tab f2 (notify tab f st).2).2.proc = (notify tab f st).2.proc) ∧
    signotify sigstr (notify tab none st).2.notifyf sig =
      ⟨none, Outcome.terminated sig sig 1⟩ := by
  cases hinit : st.init <;>
    simp [notify, hinit, signotify, signotifySwitch]

/-- C10 (witness): a first `notify` call on the fresh shim state runs
the initialization and returns 0. -/
theorem C10_witness :
    shim0.init = false ∧
    (notify sigs (some HandlerBehavior.ret) shim0).1 = 0 ∧
    (notify sigs (some HandlerBehavior.ret) shim0).2.proc =
      noteinitOn sigs shim0.proc := by
  have h := C10_register_semantics sigs (some HandlerBehavior.ret) shim0 sigstrW 1
  exact ⟨rfl, h.1, h.2.2.2.1 rfl⟩

end P9
